import Mathlib

/-!
Verification of the Trading-Dashboard backtesting core against its
specification.  The definitions below are a shallow embedding of the
Python sources:

  * `app/core/strategies/broker.py`    — fill/fee/margin math
  * `app/core/strategies/portfolio.py` — mark-to-market / position lifecycle
  * `app/core/strategies/backtest.py`  — the bar-replay loop `run_backtest`
  * `app/core/data_fetch.py`           — fetch orchestrator and `timeframe_to_ms`
  * `app/core/data_store.py`           — the on-disk OHLCV cache (one key)

Python floats are modelled as rationals (`ℚ`): every property checked here
is an exact arithmetic identity, not a rounding property.  Millisecond
timestamps and Python ints are modelled as `Int`; `int(x / y)` is
`Int.tdiv` (truncation toward zero, which is what Python's `int()` of a
true-division result performs).

The record types `Order`, `Trade`, `Position`, `Portfolio` and the strategy
context live in `models.py` / `context.py`, which are not among the staged
source files; their fields are modelled from the spec (§3) and pinned down
by how `backtest.py` uses them.  Strategy callbacks are modelled as pure
functions; `on_order` / `on_trade` invocations and one-time warnings are
recorded in an explicit event log.
-/

set_option maxRecDepth 100000

/- Batteries marks the `Rat` arithmetic operations `@[irreducible]`, which
blocks `decide`-style evaluation of concrete runs at default transparency
(the kernel itself is unaffected).  Restore default reducibility for this
file's concrete evaluations. -/
attribute [local semireducible] Rat.add Rat.sub Rat.mul Rat.inv Rat.ofScientific

/-- One OHLCV bar: `(timestamp_ms, open, high, low, close, volume)`.
`backtest.py` reads `bars[i][0]` (ts), `bars[i][1]` (open), `bars[i][4]`
(close). -/
structure Bar where
  ts : Int
  opn : ℚ
  hgh : ℚ
  lw : ℚ
  cls : ℚ
  vol : ℚ
deriving DecidableEq, Repr

/-- Modelled from the spec (§3 RunConfig): `initial_cash, leverage,
commission_bps, slippage_bps, start_ts, close_on_finish`; `models.py` is not
among the staged sources. -/
structure RunConfig where
  initial_cash : ℚ
  leverage : ℚ
  commission_bps : ℚ
  slippage_bps : ℚ
  start_ts : Int
  close_on_finish : Bool
deriving DecidableEq, Repr

/-- Modelled from the spec (§3 Position): signed size, nullable entry
price/timestamp; `models.py` is not among the staged sources. -/
structure Position where
  size : ℚ
  entry_price : Option ℚ
  entry_ts : Option Int
deriving DecidableEq, Repr

/-- Modelled from the spec (§3/§4.3 Portfolio): cash, equity, running peak
and drawdown; `models.py` is not among the staged sources. -/
structure Portfolio where
  cash : ℚ
  equity : ℚ
  peak : ℚ
  drawdown : ℚ
deriving DecidableEq, Repr

/-- Modelled from the spec (§3 Order): resolved orders carry
`fill_ts`/`fill_price`/`fee` iff FILLED and `reason` iff REJECTED.
Status and side are the Python strings. -/
structure Order where
  submitted_ts : Int
  side : String
  size : ℚ
  status : String
  reason : Option String
  fill_ts : Option Int
  fill_price : Option ℚ
  fee : Option ℚ
deriving DecidableEq, Repr

/-- Modelled from the spec (§3 Trade). -/
structure Trade where
  side : String
  size : ℚ
  entry_ts : Int
  entry_price : ℚ
  exit_ts : Int
  exit_price : ℚ
  pnl : ℚ
  fee_total : ℚ
  bars_held : Int
deriving DecidableEq, Repr

/-- An order request as the strategy queues it during `on_bar` (the dicts
`ctx.pop_orders()` returns: keys `side`, `size`, `submitted_ts`). -/
structure Req where
  side : String
  size : ℚ
  submitted_ts : Option Int
deriving DecidableEq, Repr

/-- Callback/log events the loop emits, in order: `on_order`, `on_trade`
invocations and the one-time "scaling not supported in V2" warning. -/
inductive Ev where
  | order (o : Order)
  | trade (t : Trade)
  | warnScale
deriving DecidableEq, Repr

/-! ## broker.py -/

/-- Python's `str.upper()` (character-wise, as a structurally recursive
map so that it evaluates inside the kernel). -/
def pyUpper (s : String) : String :=
  String.mk (s.data.map Char.toUpper)

/-- `broker.compute_fill_price`: BUY pays up, SELL receives down by
`slippage_bps/10000`; any other side returns the open price unchanged. -/
def compute_fill_price (open_price : ℚ) (side : String) (slippage_bps : ℚ) : ℚ :=
  if pyUpper side = "BUY" then open_price * (1 + slippage_bps / 10000)
  else if pyUpper side = "SELL" then open_price * (1 - slippage_bps / 10000)
  else open_price

/-- `broker.compute_fee`: `abs(size) * price * (commission_bps / 10000)`. -/
def compute_fee (size : ℚ) (price : ℚ) (commission_bps : ℚ) : ℚ :=
  |size| * price * (commission_bps / 10000)

/-- `broker.margin_required`: leverage ≤ 0 is treated as 1. -/
def margin_required (size : ℚ) (price : ℚ) (leverage : ℚ) : ℚ :=
  |size| * price / (if leverage ≤ 0 then 1 else leverage)

/-- `broker.can_fill`: `(required ≤ equity, required)`. -/
def can_fill (size : ℚ) (price : ℚ) (equity : ℚ) (leverage : ℚ) : Bool × ℚ :=
  let required := margin_required size price leverage
  (decide (required ≤ equity), required)

/-! ## portfolio.py -/

/-- Modelled from the spec (§4.3): `Portfolio.update_drawdown` lives in
`models.py`, which is not among the staged sources.  "Updates drawdown as
`(running_peak − equity)/running_peak` where running_peak is the maximum
equity ever observed, clamped to ≥ 0; peak initializes to the first observed
equity and only increases." -/
def update_drawdown (p : Portfolio) : Portfolio :=
  let peak := max p.peak p.equity
  { p with peak := peak, drawdown := max 0 ((peak - p.equity) / peak) }

/-- `portfolio.mark_to_market`: returns the updated portfolio and the
unrealized pnl (the Python function mutates `portfolio` and returns pnl). -/
def mark_to_market (portfolio : Portfolio) (position : Position) (price : ℚ) :
    Portfolio × ℚ :=
  if position.size = 0 ∨ position.entry_price = none then
    (update_drawdown { portfolio with equity := portfolio.cash }, 0)
  else
    let pnl := (price - position.entry_price.getD 0) * position.size
    (update_drawdown { portfolio with equity := portfolio.cash + pnl }, pnl)

/-- `portfolio.close_position`: reset to flat. -/
def close_position (position : Position) : Position :=
  { position with size := 0, entry_price := none, entry_ts := none }

/-- `portfolio.position_side`. -/
def position_side (position : Position) : Option String :=
  if position.size > 0 then some "LONG"
  else if position.size < 0 then some "SHORT"
  else none

/-! ## backtest.py -/

/-- The loop's run-local state: portfolio/position, the pending order queue
(`pending_orders`), the incrementally built `BacktestResult` series
(`orders`, `trades`, `equity_ts`, `equity`, `drawdown`, `position_size`,
`price`), the emitted callback events, and the `last_warn["scale"]` flag. -/
structure St where
  portfolio : Portfolio
  position : Position
  pending : List Req
  orders : List Order
  trades : List Trade
  equity_ts : List Int
  equity : List ℚ
  drawdown : List ℚ
  position_size : List ℚ
  price : List ℚ
  events : List Ev
  warnedScale : Bool
deriving DecidableEq, Repr

/-- `run_backtest` terminal status. -/
inductive Status where
  | DONE
  | CANCELED
deriving DecidableEq, Repr

/-- The fresh state `run_backtest` starts from: portfolio at
`config.initial_cash` (equity = peak = cash, drawdown 0), flat position,
everything else empty. -/
def initSt (cfg : RunConfig) : St :=
  { portfolio := { cash := cfg.initial_cash, equity := cfg.initial_cash,
                   peak := cfg.initial_cash, drawdown := 0 }
    position := { size := 0, entry_price := none, entry_ts := none }
    pending := [], orders := [], trades := [], equity_ts := [], equity := []
    drawdown := [], position_size := [], price := [], events := []
    warnedScale := false }

/-- Execution of one resolved order (`backtest.py` lines 83–132, after
FLATTEN resolution): slippage-adjusted fill price from the resolving bar's
*open*, margin check against current equity, then open / scale-skip /
close handling.  `barInterval` is `bars[1][0] - bars[0][0]` (used by
`bars_held`), `ts`/`open_price` are the resolving bar's timestamp and
open. -/
def execOrder (cfg : RunConfig) (barInterval : Int) (ts : Int) (open_price : ℚ)
    (st : St) (submitted_ts : Int) (side : String) (size : ℚ) : St :=
    let order0 : Order :=
      { submitted_ts := submitted_ts, side := side, size := size,
        status := "", reason := none, fill_ts := none, fill_price := none, fee := none }
    let fill_price := compute_fill_price open_price side cfg.slippage_bps
    let ok := (can_fill size fill_price st.portfolio.equity cfg.leverage).1
    if !ok then
      let order := { order0 with status := "REJECTED", reason := some "margin" }
      { st with orders := st.orders ++ [order], events := st.events ++ [Ev.order order] }
    else
      let fee := compute_fee size fill_price cfg.commission_bps
      let order := { order0 with fill_ts := some ts, fill_price := some fill_price,
                                 fee := some fee, status := "FILLED" }
      let st1 := { st with orders := st.orders ++ [order] }
      if st1.position.size = 0 then
        { st1 with
          position := { size := if side = "BUY" then size else -size,
                        entry_price := some fill_price, entry_ts := some ts }
          portfolio := { st1.portfolio with cash := st1.portfolio.cash - fee }
          events := st1.events ++ [Ev.order order] }
      else if (st1.position.size > 0 ∧ side = "BUY") ∨
              (st1.position.size < 0 ∧ side = "SELL") then
        if !st1.warnedScale then
          { st1 with warnedScale := true, events := st1.events ++ [Ev.warnScale] }
        else st1
      else
        let entry_price := st1.position.entry_price.getD fill_price
        let entry_ts := st1.position.entry_ts.getD ts
        let pnl := (fill_price - entry_price) * st1.position.size
        let trade : Trade :=
          { side := (position_side st1.position).getD "LONG",
            size := |st1.position.size|, entry_ts := entry_ts,
            entry_price := entry_price, exit_ts := ts, exit_price := fill_price,
            pnl := pnl - fee, fee_total := fee,
            bars_held := max 1 (Int.tdiv (ts - entry_ts) (max 1 barInterval)) }
        { st1 with
          portfolio := { st1.portfolio with cash := st1.portfolio.cash + pnl - fee }
          trades := st1.trades ++ [trade]
          events := st1.events ++ [Ev.trade trade, Ev.order order]
          position := close_position st1.position }

/-- Resolution of one pending order at a bar (`backtest.py` lines 74–132):
a FLATTEN request against a flat position is silently dropped; otherwise
FLATTEN resolves to the opposite side for the whole position and the
order executes via `execOrder`. -/
def resolveOne (cfg : RunConfig) (barInterval : Int) (ts : Int) (open_price : ℚ)
    (st : St) (o : Req) : St :=
  -- `if side == "FLATTEN": if position.size == 0: continue` — dropped, no record
  if o.side = "FLATTEN" ∧ st.position.size = 0 then st
  else
    execOrder cfg barInterval ts open_price st (o.submitted_ts.getD ts)
      (if o.side = "FLATTEN" then
         (if st.position.size > 0 then "SELL" else "BUY")
       else o.side)
      (if o.side = "FLATTEN" then |st.position.size| else o.size)

/-- All pending orders resolved left to right at one bar. -/
def resolveOrders (cfg : RunConfig) (barInterval : Int) (ts : Int)
    (open_price : ℚ) (reqs : List Req) (st : St) : St :=
  reqs.foldl (resolveOne cfg barInterval ts open_price) st

/-- Lines 60–70 of the loop body: mark to market at the bar's close, then
append the sample point to the result series when the bar is in-window. -/
def markAndRecord (cfg : RunConfig) (bar : Bar) (st : St) : St :=
  let portfolio := (mark_to_market st.portfolio st.position bar.cls).1
  let st1 := { st with portfolio := portfolio }
  if bar.ts ≥ cfg.start_ts then
    { st1 with
      equity_ts := st1.equity_ts ++ [bar.ts]
      equity := st1.equity ++ [portfolio.equity]
      drawdown := st1.drawdown ++ [portfolio.drawdown]
      position_size := st1.position_size ++ [st1.position.size]
      price := st1.price ++ [bar.cls] }
  else st1

/-- One iteration of the replay loop at index `i` (cancellation poll
excluded): mark/record at bar i's close, resolve the orders queued during
bar i−1's `on_bar` at bar i's open, then queue what `on_bar(ctx, i)`
submits (dropped when bar i precedes `start_ts` — trading is disabled
during warmup). -/
def stepBar (cfg : RunConfig) (bars : Nat → Bar) (strat : Nat → St → List Req)
    (i : Nat) (st : St) : St :=
  let bar := bars i
  let barInterval := (bars 1).ts - (bars 0).ts
  let st1 := markAndRecord cfg bar st
  let st2 := resolveOrders cfg barInterval bar.ts bar.opn st1.pending st1
  { st2 with pending := if bar.ts < cfg.start_ts then [] else strat i st2 }

/-- The replay loop over indices `0 .. n-2`: `fuel` counts the remaining
iterations (`n-1` at the start).  The cancellation predicate is polled at
every 100th index, *before* the bar is processed; on cancellation the loop
stops and returns the index at which the poll fired. -/
def loopRun (cfg : RunConfig) (bars : Nat → Bar) (strat : Nat → St → List Req)
    (cancel : Nat → Bool) : Nat → Nat → St → St × Status × Nat
  | 0, i, st => (st, Status.DONE, i)
  | fuel + 1, i, st =>
    if i % 100 = 0 ∧ cancel i then (st, Status.CANCELED, i)
    else loopRun cfg bars strat cancel fuel (i + 1) (stepBar cfg bars strat i st)

/-- The forced close-out trade (cancellation lines 147–162, or
`close_on_finish` lines 166–181): close the open position at `close_price`
with the normal fee/pnl accounting and `bars_held = 1`; `none` when the
position is already flat. -/
def closeoutTrade (cfg : RunConfig) (closeBarTs : Int) (close_price : ℚ)
    (st : St) : Option Trade :=
  if st.position.size = 0 then none
  else
    let fee := compute_fee |st.position.size| close_price cfg.commission_bps
    let pnl := (close_price - st.position.entry_price.getD close_price) * st.position.size
    some { side := (position_side st.position).getD "LONG",
           size := |st.position.size|,
           entry_ts := st.position.entry_ts.getD closeBarTs,
           entry_price := st.position.entry_price.getD close_price,
           exit_ts := closeBarTs, exit_price := close_price,
           pnl := pnl - fee, fee_total := fee, bars_held := 1 }

/-- Apply the forced close-out: `cash += pnl - fee`, append the trade,
reset the position.  No `on_trade` callback fires here (the event log is
untouched). -/
def finalizeClose (cfg : RunConfig) (closeBarTs : Int) (close_price : ℚ)
    (st : St) : St :=
  if st.position.size = 0 then st
  else
    let fee := compute_fee |st.position.size| close_price cfg.commission_bps
    let pnl := (close_price - st.position.entry_price.getD close_price) * st.position.size
    let t : Trade :=
      { side := (position_side st.position).getD "LONG",
        size := |st.position.size|,
        entry_ts := st.position.entry_ts.getD closeBarTs,
        entry_price := st.position.entry_price.getD close_price,
        exit_ts := closeBarTs, exit_price := close_price,
        pnl := pnl - fee, fee_total := fee, bars_held := 1 }
    { st with
      portfolio := { st.portfolio with cash := st.portfolio.cash + (pnl - fee) }
      trades := st.trades ++ [t]
      position := close_position st.position }

/-- `run_backtest(bars, strategy, params, config, cancel_flag)`: `none` for
fewer than 2 bars (the Python code raises `ValueError`), otherwise the
final state and terminal status.  `bars` is the bar array as a function on
indices with `n` its length; the strategy is its `on_bar` decision function
(queued requests as a function of the bar index and the visible run state);
`cancel` is the cancellation predicate as a function of the polled index. -/
def run_backtest (cfg : RunConfig) (bars : Nat → Bar) (n : Nat)
    (strat : Nat → St → List Req) (cancel : Nat → Bool) : Option (St × Status) :=
  if n < 2 then none
  else
    let r := loopRun cfg bars strat cancel (n - 1) 0 (initSt cfg)
    let st := r.1
    let status := r.2.1
    let iBrk := r.2.2
    let st' :=
      match status with
      | Status.CANCELED =>
        let i := min iBrk (n - 1)
        finalizeClose cfg (bars i).ts (bars i).cls st
      | Status.DONE =>
        if cfg.close_on_finish then
          finalizeClose cfg (bars (n - 1)).ts (bars (n - 1)).cls st
        else st
    some (st', status)

/-! ## data_fetch.py — timeframe parsing -/

/-- Python's `int(str)` restricted to an optional sign followed by decimal
digits (underscore separators and unicode digits are not modelled; none of
the checked inputs use them).  `none` models the `ValueError` branch. -/
def digitsVal (cs : List Char) : Option Nat :=
  if cs = [] ∨ ¬ cs.all Char.isDigit then none
  else some (cs.foldl (fun n c => n * 10 + (c.toNat - 48)) 0)

/-- `int(timeframe[:-1])` as `data_fetch.timeframe_to_ms` uses it. -/
def parseIntPy (cs : List Char) : Option Int :=
  match cs with
  | '-' :: rest => (digitsVal rest).map (fun n => -(n : Int))
  | '+' :: rest => (digitsVal rest).map (fun n => (n : Int))
  | _ => (digitsVal cs).map (fun n => (n : Int))

/-- `data_fetch.timeframe_to_ms`: the unit letter is `timeframe[-1].lower()`
(note the lowercasing: the later `unit == 'M'` comparison can never
succeed), the multiplier `int(timeframe[:-1])`; empty or unparseable
strings return the 60000 ms default. -/
def timeframe_to_ms (timeframe : String) : Int :=
  if timeframe.data = [] then 60000
  else
    let unit := (timeframe.data.getLastD ' ').toLower
    match parseIntPy timeframe.data.dropLast with
    | none => 60000
    | some mult =>
      if unit = 'm' then mult * 60000
      else if unit = 'h' then mult * 3600000
      else if unit = 'd' then mult * 86400000
      else if unit = 'w' then mult * 7 * 86400000
      else if unit = 'M' then mult * 30 * 86400000
      else 60000

/-! ## data_fetch.py — the gap test -/

/-- The walk over consecutive timestamps shared by every fetch mode:
`if ts - prev_ts > interval_ms * 1.5: has_gap = True`. -/
def hasGapGo (interval_ms : Int) : Int → List Int → Bool
  | _, [] => false
  | prev_ts, ts :: rest =>
    if ((ts - prev_ts : Int) : ℚ) > (interval_ms : ℚ) * 1.5 then true
    else hasGapGo interval_ms ts rest

/-- The gap test on a candidate series (`data_fetch.py` lines 34–42 and the
identical walks in `load_more_history` / `load_window_bars`): series with
fewer than two rows have no gap. -/
def seriesHasGap (rows : List Bar) (interval_ms : Int) : Bool :=
  match rows.map Bar.ts with
  | [] => false
  | t :: rest => hasGapGo interval_ms t rest

/-! ## data_store.py — the cache for one (exchange, symbol, timeframe) key

Every orchestrator call under scrutiny uses a single key, so the store is
modelled keyed-free: the `ohlcv` rows for that key plus the history-limit
marker.  Malformed-row validation in `store_bars` (rows with fewer than 6
fields or non-numeric values are dropped) is not modelled: `Bar` is already
well-typed. -/
structure CStore where
  rows : List Bar
  histOldest : Option Int
  histReached : Bool
deriving DecidableEq, Repr

/-- `INSERT OR REPLACE` of one row into the ts-sorted row list: the new
row's values win on an existing timestamp. -/
def upsertBar (b : Bar) : List Bar → List Bar
  | [] => [b]
  | x :: xs =>
    if b.ts < x.ts then b :: x :: xs
    else if b.ts = x.ts then b :: xs
    else x :: upsertBar b xs

/-- `DataStore.store_bars` (upsert batch). -/
def store_bars (s : CStore) (bars : List Bar) : CStore :=
  { s with rows := bars.foldl (fun l b => upsertBar b l) s.rows }

/-- `DataStore.load_bars`: rows with `ts_ms BETWEEN start_ts AND end_ts`,
ascending (the store keeps rows sorted). -/
def load_bars (s : CStore) (start_ts end_ts : Int) : List Bar :=
  s.rows.filter (fun b => decide (start_ts ≤ b.ts ∧ b.ts ≤ end_ts))

/-- `DataStore.get_cached_range`: `(MIN(ts_ms), MAX(ts_ms))`, `none` when
no rows exist. -/
def get_cached_range (s : CStore) : Option (Int × Int) :=
  match s.rows with
  | [] => none
  | b :: rest => some (rest.foldl (fun p x => (min p.1 x.ts, max p.2 x.ts)) (b.ts, b.ts))

/-- Modelled from the spec (§4.4, §6): `DataStore.get_history_limit` — the
`(oldest_ts, reached)` marker — is called by `data_fetch.py` but its method
body is not among the staged sources. -/
def get_history_limit (s : CStore) : Option Int × Bool :=
  (s.histOldest, s.histReached)

/-- Modelled from the spec (§4.4, §6): `DataStore.set_history_limit`
records the provable left-edge boundary of available history. -/
def set_history_limit (s : CStore) (oldest_ts : Int) (reached : Bool) : CStore :=
  { s with histOldest := some oldest_ts, histReached := reached }

/-! ## data_fetch.py — the fetch orchestrator

`binance.fetch_ohlcv` is modelled as a pure oracle `fetch : start → end →
bars`, `time.time()*1000` as the parameter `now_ms`.  Each orchestrator
function additionally returns the store it leaves behind and the list of
`(start, end)` windows it requested from the provider, so that "no network
call is made" is the statement `calls = []`. -/
structure FetchOut where
  bars : List Bar
  store : CStore
  calls : List (Int × Int)
deriving DecidableEq, Repr

/-- `data_fetch.load_recent_bars`: forward top-up of a stale cache, the
unconditional refresh of the most recent two intervals, then the
density/gap test on the cached window — re-fetching the full window when
it fails.  `int(bar_count * 0.9)` is `bar_count * 9 / 10`. -/
def load_recent_bars (fetch : Int → Int → List Bar) (now_ms : Int)
    (store : CStore) (timeframe : String) (bar_count : Nat) : FetchOut :=
  let interval_ms := timeframe_to_ms timeframe
  let start_ms := now_ms - (bar_count : Int) * interval_ms
  let fwd : CStore × List (Int × Int) :=
    match get_cached_range store with
    | some (_, cached_max) =>
      if cached_max < now_ms - interval_ms then
        (store_bars store (fetch (cached_max + interval_ms) now_ms),
         [(cached_max + interval_ms, now_ms)])
      else (store, [])
    | none => (store, [])
  let recent_start := max 0 (now_ms - interval_ms * 2)
  let store1 := store_bars fwd.1 (fetch recent_start now_ms)
  let calls := fwd.2 ++ [(recent_start, now_ms)]
  let cached := load_bars store1 start_ms now_ms
  if !cached.isEmpty then
    let expected_min : Nat := bar_count * 9 / 10
    let has_gap := seriesHasGap cached interval_ms
    if cached.length ≥ expected_min ∧ !has_gap then
      { bars := cached, store := store1, calls := calls }
    else
      let store2 := store_bars store1 (fetch start_ms now_ms)
      { bars := load_bars store2 start_ms now_ms, store := store2,
        calls := calls ++ [(start_ms, now_ms)] }
  else
    let bars := fetch start_ms now_ms
    { bars := bars, store := store_bars store1 bars,
      calls := calls ++ [(start_ms, now_ms)] }

/-- The history-limit short-circuit test of `load_more_history` (line 119):
`oldest_reached and oldest_ts is not None and current_min_ts <= oldest_ts`. -/
def histShortCircuit (store : CStore) (cmin : Int) : Bool :=
  (get_history_limit store).2 &&
    (match (get_history_limit store).1 with
     | some o => decide (cmin ≤ o)
     | none => false)

/-- `new_start = max(0, current_min_ts - (bar_count * interval_ms))`
(line 122 of `load_more_history`). -/
def backfillStart (timeframe : String) (bar_count : Nat) (cmin : Int) : Int :=
  max 0 (cmin - (bar_count : Int) * timeframe_to_ms timeframe)

/-- The `cached_prev` density test plus gap walk of `load_more_history`
(lines 126–138): a sparse or gapped cached extension counts as `has_gap`. -/
def backfillHasGap (store : CStore) (timeframe : String) (bar_count : Nat)
    (cmin : Int) : Bool :=
  let interval_ms := timeframe_to_ms timeframe
  let new_start := backfillStart timeframe bar_count cmin
  let cached_prev := load_bars store new_start (cmin - 1)
  let expected_count : Int :=
    if interval_ms > 0 then Int.tdiv (cmin - 1 - new_start) interval_ms + 1 else 0
  if !cached_prev.isEmpty ∧
     (cached_prev.length : Int) ≥ max 1 (Int.tdiv (9 * expected_count) 10) then
    seriesHasGap cached_prev interval_ms
  else true

/-- `data_fetch.load_more_history`: backward extension by `bar_count`
bars.  Short-circuits on the history limit when `current_min_ts ≤
oldest_ts`; fetches the extension window only when the cached prefix is
sparse or gapped; a zero-bar provider response records the history limit
at `current_min_ts`. -/
def load_more_history (fetch : Int → Int → List Bar) (now_ms : Int)
    (store : CStore) (timeframe : String) (bar_count : Nat)
    (current_min_ts current_max_ts : Option Int) : FetchOut :=
  match get_cached_range store with
  | none => load_recent_bars fetch now_ms store timeframe bar_count
  | some (min_ts, max_ts) =>
    let cmin := current_min_ts.getD min_ts
    let cmax := current_max_ts.getD max_ts
    if histShortCircuit store cmin then
      { bars := load_bars store cmin cmax, store := store, calls := [] }
    else
      let new_start := backfillStart timeframe bar_count cmin
      if new_start ≥ cmin then
        { bars := load_bars store cmin cmax, store := store, calls := [] }
      else
        if backfillHasGap store timeframe bar_count cmin then
          let fetched := fetch new_start (cmin - 1)
          if !fetched.isEmpty then
            let store1 := store_bars store fetched
            { bars := load_bars store1 new_start cmax, store := store1,
              calls := [(new_start, cmin - 1)] }
          else
            let store1 := set_history_limit store cmin true
            { bars := load_bars store1 cmin cmax, store := store1,
              calls := [(new_start, cmin - 1)] }
        else
          { bars := load_bars store new_start cmax, store := store, calls := [] }

/-! ## Concrete fixtures used by the gap-detection and history-limit claims -/

/-- A bar with the given timestamp and unit prices (helper for fixtures). -/
def tsBar (t : Int) : Bar :=
  { ts := t, opn := 1, hgh := 1, lw := 1, cls := 1, vol := 0 }

/-- Cache holding the synthetic series with timestamps
[0, 60000, 120000, 300000] (a 180000 ms jump at a 60000 ms interval). -/
def store7 : CStore :=
  { rows := [tsBar 0, tsBar 60000, tsBar 120000, tsBar 300000],
    histOldest := none, histReached := false }

/-- Provider oracle for the gap scenario: a dense 6-bar answer for the full
requested window [0, 300000], nothing for any other window. -/
def fetch7 : Int → Int → List Bar := fun s e =>
  if s = 0 ∧ e = 300000 then
    [tsBar 0, tsBar 60000, tsBar 120000, tsBar 180000, tsBar 240000, tsBar 300000]
  else []

/-- Cache for the history-limit scenario: bars at 200000 and 260000 with the
history limit recorded as reached at 100000. -/
def store8 : CStore :=
  { rows := [tsBar 200000, tsBar 260000],
    histOldest := some 100000, histReached := true }

/-! ## Claim theorems -/

/-- The gap walk flags a series iff some adjacent timestamp pair jumps by
more than `1.5 × interval`. -/
theorem hasGapGo_iff (c : Int) :
    ∀ (l : List Int) (prev : Int),
      hasGapGo c prev l = true ↔
        ∃ p ∈ (prev :: l).zip l, ((p.2 - p.1 : Int) : ℚ) > (c : ℚ) * 1.5 := by
  intro l
  induction l with
  | nil => intro prev; simp [hasGapGo]
  | cons t rest ih =>
    intro prev
    rw [List.zip_cons_cons]
    by_cases h : ((t - prev : Int) : ℚ) > (c : ℚ) * 1.5
    · simp only [hasGapGo, if_pos h, true_iff]
      exact ⟨(prev, t), List.mem_cons_self _ _, by simpa using h⟩
    · simp only [hasGapGo, if_neg h, ih t, List.mem_cons]
      constructor
      · rintro ⟨p, hp, hgt⟩
        exact ⟨p, Or.inr hp, hgt⟩
      · rintro ⟨p, hp | hp, hgt⟩
        · subst hp
          exact absurd (by simpa using hgt) h
        · exact ⟨p, hp, hgt⟩

/-- The gap test in terms of the series' timestamp list. -/
theorem seriesHasGap_iff (rows : List Bar) (c : Int) :
    seriesHasGap rows c = true ↔
      ∃ p ∈ (rows.map Bar.ts).zip (rows.map Bar.ts).tail,
        ((p.2 - p.1 : Int) : ℚ) > (c : ℚ) * 1.5 := by
  cases rows with
  | nil => simp [seriesHasGap]
  | cons b rest => simpa [seriesHasGap] using hasGapGo_iff c (rest.map Bar.ts) b.ts

/-- C7: the gap test flags `has_gap` iff some adjacent timestamp pair
differs by more than 1.5 × the nominal interval; the series with timestamps
[0, 60000, 120000, 300000] at a 60000 ms interval is flagged (the cached
window has 4 ≥ ⌊5·0.9⌋ bars, so only the gap forces the re-fetch), and
`load_recent_bars` therefore issues a full-window provider fetch
(0, 300000) — after the unconditional recent-window refresh — and returns
the re-fetched 6-bar series instead of the 4-bar cached slice. -/
theorem C7_gap_detection :
    (∀ (rows : List Bar) (interval_ms : Int),
        seriesHasGap rows interval_ms = true ↔
          ∃ p ∈ (rows.map Bar.ts).zip (rows.map Bar.ts).tail,
            ((p.2 - p.1 : Int) : ℚ) > (interval_ms : ℚ) * 1.5) ∧
    seriesHasGap store7.rows 60000 = true ∧
    (load_bars store7 0 300000).length = 4 ∧ (5 * 9 / 10 : Nat) = 4 ∧
    (load_recent_bars fetch7 300000 store7 "1m" 5).calls =
      [(180000, 300000), (0, 300000)] ∧
    (load_recent_bars fetch7 300000 store7 "1m" 5).bars.length = 6 :=
  ⟨seriesHasGap_iff, by decide, by decide,
   by decide, by decide, by decide⟩

/-- C9: `timeframe_to_ms` parses m/h/d/w correctly and defaults to 60000 on
empty or unparseable input, but `"1M"` (calendar month) returns 60000·1 —
the unit is lowercased before comparison, so the `unit == 'M'` branch is
dead and "1M" is parsed as one *minute*, not 30 days. -/
theorem C9_timeframe_parsing :
    timeframe_to_ms "15m" = 900000 ∧ timeframe_to_ms "1h" = 3600000 ∧
    timeframe_to_ms "2d" = 172800000 ∧ timeframe_to_ms "3w" = 3 * 604800000 ∧
    timeframe_to_ms "" = 60000 ∧ timeframe_to_ms "bogus" = 60000 ∧
    timeframe_to_ms "1M" = 60000 ∧ ¬ timeframe_to_ms "1M" = 1 * 2592000000 := by
  decide

/-- C8 counterexample: the history limit is recorded as reached at
T = 100000 and the backfill's target start is 140000 ≥ T, yet
`load_more_history` still invokes the provider (the short-circuit tests
`current_min_ts ≤ oldest_ts`, i.e. 200000 ≤ 100000, which fails); the
claim's "returns cached bars without invoking the external provider" is
false.  (The provider here returns zero bars and the limit is re-recorded
at 200000.) -/
theorem C8_history_limit_cx :
    get_history_limit store8 = (some 100000, true) ∧
    max 0 (200000 - ((1 : Nat) : Int) * timeframe_to_ms "1m") = 140000 ∧
    (140000 : Int) ≥ 100000 ∧
    (load_more_history (fun _ _ => []) 0 store8 "1m" 1 none none).calls =
      [(140000, 199999)] ∧
    (load_more_history (fun _ _ => []) 0 store8 "1m" 1 none none).store.histOldest =
      some 200000 := by
  decide

/-- C8 amended: (i) the short-circuit keys on the *current window minimum*,
not the extension's target start: when the limit is recorded reached at T
and `current_min_ts ≤ T`, the call returns the cached window and issues no
provider fetch; (ii) whenever a backfill extension fetch is issued and the
provider answers with zero bars, the history limit is recorded as reached
at `current_min_ts` (the fetched extension window is `[new_start,
current_min_ts - 1]`, so the recorded boundary is `e + 1`). -/
theorem C8_history_limit_amended :
    (∀ (fetch : Int → Int → List Bar) (now_ms : Int) (store : CStore)
        (tf : String) (bar_count : Nat) (cmin0 cmax0 : Option Int)
        (mn mx T : Int),
        get_cached_range store = some (mn, mx) →
        store.histReached = true → store.histOldest = some T →
        cmin0.getD mn ≤ T →
        load_more_history fetch now_ms store tf bar_count cmin0 cmax0 =
          { bars := load_bars store (cmin0.getD mn) (cmax0.getD mx),
            store := store, calls := [] }) ∧
    (∀ (fetch : Int → Int → List Bar) (now_ms : Int) (store : CStore)
        (tf : String) (bar_count : Nat) (cmin0 cmax0 : Option Int)
        (mn mx s e : Int),
        get_cached_range store = some (mn, mx) →
        (load_more_history fetch now_ms store tf bar_count cmin0 cmax0).calls =
          [(s, e)] →
        fetch s e = [] →
        (load_more_history fetch now_ms store tf bar_count cmin0 cmax0).store.histOldest =
            some (e + 1) ∧
          (load_more_history fetch now_ms store tf bar_count cmin0 cmax0).store.histReached =
            true) := by
  constructor
  · intro fetch now_ms store tf bar_count cmin0 cmax0 mn mx T hrange hr ho hle
    have hsc : histShortCircuit store (cmin0.getD mn) = true := by
      simp [histShortCircuit, get_history_limit, hr, ho, hle]
    unfold load_more_history
    rw [hrange]
    simp only [hsc, if_true]
  · intro fetch now_ms store tf bar_count cmin0 cmax0 mn mx s e hrange hcalls hfetch
    unfold load_more_history at hcalls ⊢
    rw [hrange] at hcalls ⊢
    by_cases hsc : histShortCircuit store (cmin0.getD mn) = true
    · simp [hsc] at hcalls
    · simp only [hsc, Bool.false_eq_true, if_false] at hcalls ⊢
      by_cases hns : backfillStart tf bar_count (cmin0.getD mn) ≥ cmin0.getD mn
      · rw [if_pos hns] at hcalls
        simp at hcalls
      · rw [if_neg hns] at hcalls ⊢
        by_cases hgap : backfillHasGap store tf bar_count (cmin0.getD mn) = true
        · rw [if_pos hgap] at hcalls ⊢
          have hse : s = backfillStart tf bar_count (cmin0.getD mn) ∧
              e = cmin0.getD mn - 1 := by
            by_cases hne : !(fetch (backfillStart tf bar_count (cmin0.getD mn))
                (cmin0.getD mn - 1)).isEmpty
            · rw [if_pos hne] at hcalls
              have := congrArg List.head? hcalls
              simpa [eq_comm] using this
            · rw [if_neg hne] at hcalls
              have := congrArg List.head? hcalls
              simpa [eq_comm] using this
          obtain ⟨hs, he⟩ := hse
          subst hs he
          have hne : (!(fetch (backfillStart tf bar_count (cmin0.getD mn))
              (cmin0.getD mn - 1)).isEmpty) = false := by
            rw [hfetch]; rfl
          rw [if_neg (by simp [hne])]
          constructor
          · show (set_history_limit store (cmin0.getD mn) true).histOldest =
              some (cmin0.getD mn - 1 + 1)
            simp [set_history_limit]
          · rfl
        · rw [if_neg hgap] at hcalls
          simp at hcalls

/-- `markAndRecord` never touches the order ledger. -/
theorem markAndRecord_orders (cfg : RunConfig) (bar : Bar) (st : St) :
    (markAndRecord cfg bar st).orders = st.orders := by
  unfold markAndRecord
  split <;> rfl

/-- `markAndRecord` never touches the pending queue. -/
theorem markAndRecord_pending (cfg : RunConfig) (bar : Bar) (st : St) :
    (markAndRecord cfg bar st).pending = st.pending := by
  unfold markAndRecord
  split <;> rfl

/-- C2: for every order the loop resolves, an accepted fill's required
margin (at its recorded fill price) is ≤ the portfolio equity at fill
time, a rejection's required margin strictly exceeds it, the rejection is
recorded with reason "margin", and a rejection mutates neither the
portfolio nor the position. -/
theorem execOrder_margin_spec (cfg : RunConfig) (barInterval ts : Int)
    (open_price : ℚ) (st : St) (sub : Int) (side : String) (size : ℚ) :
    ∀ ord ∈ (execOrder cfg barInterval ts open_price st sub side size).orders.drop
        st.orders.length,
      (ord.status = "FILLED" →
        ∃ fp, ord.fill_price = some fp ∧
          margin_required ord.size fp cfg.leverage ≤ st.portfolio.equity) ∧
      (ord.status = "REJECTED" →
        margin_required ord.size
            (compute_fill_price open_price ord.side cfg.slippage_bps) cfg.leverage >
            st.portfolio.equity ∧
          ord.reason = some "margin" ∧
          (execOrder cfg barInterval ts open_price st sub side size).portfolio =
            st.portfolio ∧
          (execOrder cfg barInterval ts open_price st sub side size).position =
            st.position) := by
  unfold execOrder
  simp only [can_fill]
  by_cases hok : margin_required size
      (compute_fill_price open_price side cfg.slippage_bps) cfg.leverage ≤
      st.portfolio.equity
  · rw [if_neg (by simp [hok])]
    by_cases hflat : st.position.size = 0
    · rw [if_pos hflat]
      intro ord hord
      simp only [List.drop_left, List.mem_singleton] at hord
      subst hord
      exact ⟨fun _ => ⟨_, rfl, hok⟩, fun hstat => absurd hstat (by simp)⟩
    · rw [if_neg hflat]
      by_cases hscale : (st.position.size > 0 ∧ side = "BUY") ∨
          (st.position.size < 0 ∧ side = "SELL")
      · rw [if_pos hscale]
        by_cases hwarn : st.warnedScale = false
        · rw [if_pos (by simp [hwarn])]
          intro ord hord
          simp only [List.drop_left, List.mem_singleton] at hord
          subst hord
          exact ⟨fun _ => ⟨_, rfl, hok⟩, fun hstat => absurd hstat (by simp)⟩
        · rw [if_neg (by simpa using hwarn)]
          intro ord hord
          simp only [List.drop_left, List.mem_singleton] at hord
          subst hord
          exact ⟨fun _ => ⟨_, rfl, hok⟩, fun hstat => absurd hstat (by simp)⟩
      · rw [if_neg hscale]
        intro ord hord
        simp only [List.drop_left, List.mem_singleton] at hord
        subst hord
        exact ⟨fun _ => ⟨_, rfl, hok⟩, fun hstat => absurd hstat (by simp)⟩
  · rw [if_pos (by simp [hok])]
    intro ord hord
    simp only [List.drop_left, List.mem_singleton] at hord
    subst hord
    refine ⟨fun hstat => absurd hstat (by simp), fun _ => ⟨lt_of_not_ge hok, rfl, rfl, rfl⟩⟩

/-- C2: for every order the loop resolves, an accepted fill's required
margin (at its recorded fill price) is ≤ the portfolio equity at fill
time, a rejection's required margin strictly exceeds it, the rejection is
recorded with reason "margin", and a rejection mutates neither the
portfolio nor the position. -/
theorem C2_margin_conservation (cfg : RunConfig) (barInterval ts : Int)
    (open_price : ℚ) (st : St) (o : Req) :
    ∀ ord ∈ (resolveOne cfg barInterval ts open_price st o).orders.drop
        st.orders.length,
      (ord.status = "FILLED" →
        ∃ fp, ord.fill_price = some fp ∧
          margin_required ord.size fp cfg.leverage ≤ st.portfolio.equity) ∧
      (ord.status = "REJECTED" →
        margin_required ord.size
            (compute_fill_price open_price ord.side cfg.slippage_bps) cfg.leverage >
            st.portfolio.equity ∧
          ord.reason = some "margin" ∧
          (resolveOne cfg barInterval ts open_price st o).portfolio = st.portfolio ∧
          (resolveOne cfg barInterval ts open_price st o).position = st.position) := by
  unfold resolveOne
  by_cases h0 : o.side = "FLATTEN" ∧ st.position.size = 0
  · rw [if_pos h0]
    simp [List.drop_length]
  · rw [if_neg h0]
    exact execOrder_margin_spec cfg barInterval ts open_price st _ _ _

/-! ## Concrete fixtures used by the backtest-loop claims -/

/-- Config: 1000 cash, leverage 1, 10 bps commission, no slippage, trading
from ts 0, no close-on-finish. -/
def cfgA : RunConfig :=
  { initial_cash := 1000, leverage := 1, commission_bps := 10, slippage_bps := 0,
    start_ts := 0, close_on_finish := false }

/-- Bars at 60 ms spacing; bar 2 opens at 110, everything else at 100. -/
def barsA : Nat → Bar := fun i =>
  { ts := 60 * i, opn := if i = 2 then 110 else 100, hgh := 120, lw := 90,
    cls := 100, vol := 0 }

/-- Strategy: BUY 1 during bar 0, SELL 1 during bar 1 (a round trip). -/
def stratRT : Nat → St → List Req := fun i _ =>
  if i = 0 then [{ side := "BUY", size := 1, submitted_ts := none }]
  else if i = 1 then [{ side := "SELL", size := 1, submitted_ts := none }]
  else []

/-- Strategy: BUY 1 during bar 0 and BUY 1 again during bar 1 (an attempted
scale-in while already long). -/
def stratSC : Nat → St → List Req := fun i _ =>
  if i = 0 then [{ side := "BUY", size := 1, submitted_ts := none }]
  else if i = 1 then [{ side := "BUY", size := 1, submitted_ts := none }]
  else []

/-- The FILLED order that `resolveOne` appends for a BUY 1 at open 100
under `cfgA` at ts 60 (fee `1·100·0.001 = 1/10`). -/
def ordBuyA : Order :=
  { submitted_ts := 60, side := "BUY", size := 1, status := "FILLED",
    reason := none, fill_ts := some 60, fill_price := some 100, fee := some (1/10) }

/-- C2 witness: under `cfgA`, resolving BUY 1 at open 100 from the fresh
state appends exactly `ordBuyA`, and the theorem instantiates to the
margin bound `margin_required 1 100 1 ≤ 1000`. -/
theorem C2_margin_conservation_witness :
    ∃ fp, ordBuyA.fill_price = some fp ∧
      margin_required ordBuyA.size fp cfgA.leverage ≤ (initSt cfgA).portfolio.equity :=
  (C2_margin_conservation cfgA 60 60 100 (initSt cfgA)
      { side := "BUY", size := 1, submitted_ts := none } ordBuyA (by decide)).1
    (by decide)

/-- `execOrder` appends exactly one order record; if it is FILLED its
fill timestamp is the resolving bar's and its fill price is the
slippage-adjusted resolving-bar *open*. -/
theorem execOrder_orders (cfg : RunConfig) (barInterval ts : Int) (open_price : ℚ)
    (st : St) (sub : Int) (side : String) (size : ℚ) :
    ∃ ord : Order,
      (execOrder cfg barInterval ts open_price st sub side size).orders =
        st.orders ++ [ord] ∧
      ∀ _ : ord.status = "FILLED",
        ord.fill_ts = some ts ∧
        ord.fill_price = some (compute_fill_price open_price ord.side cfg.slippage_bps) := by
  unfold execOrder
  simp only [can_fill]
  by_cases hok : margin_required size
      (compute_fill_price open_price side cfg.slippage_bps) cfg.leverage ≤
      st.portfolio.equity
  · rw [if_neg (by simp [hok])]
    by_cases hflat : st.position.size = 0
    · rw [if_pos hflat]
      exact ⟨_, rfl, fun _ => ⟨rfl, rfl⟩⟩
    · rw [if_neg hflat]
      by_cases hscale : (st.position.size > 0 ∧ side = "BUY") ∨
          (st.position.size < 0 ∧ side = "SELL")
      · rw [if_pos hscale]
        by_cases hwarn : st.warnedScale = false
        · rw [if_pos (by simp [hwarn])]
          exact ⟨_, rfl, fun _ => ⟨rfl, rfl⟩⟩
        · rw [if_neg (by simpa using hwarn)]
          exact ⟨_, rfl, fun _ => ⟨rfl, rfl⟩⟩
      · rw [if_neg hscale]
        exact ⟨_, rfl, fun _ => ⟨rfl, rfl⟩⟩
  · rw [if_pos (by simp [hok])]
    exact ⟨_, rfl, fun h => absurd h (by simp)⟩

/-- `resolveOne` appends zero or one order records, the FILLED ones carrying
the resolving bar's timestamp and slippage-adjusted open. -/
theorem resolveOne_orders (cfg : RunConfig) (barInterval ts : Int) (open_price : ℚ)
    (st : St) (o : Req) :
    ∃ δ : List Order,
      (resolveOne cfg barInterval ts open_price st o).orders = st.orders ++ δ ∧
      ∀ ord ∈ δ, ord.status = "FILLED" →
        ord.fill_ts = some ts ∧
        ord.fill_price = some (compute_fill_price open_price ord.side cfg.slippage_bps) := by
  unfold resolveOne
  by_cases h0 : o.side = "FLATTEN" ∧ st.position.size = 0
  · rw [if_pos h0]
    exact ⟨[], by simp, by simp⟩
  · rw [if_neg h0]
    obtain ⟨ord, h1, h3⟩ := execOrder_orders cfg barInterval ts open_price st
      (o.submitted_ts.getD ts)
      (if o.side = "FLATTEN" then (if st.position.size > 0 then "SELL" else "BUY")
       else o.side)
      (if o.side = "FLATTEN" then |st.position.size| else o.size)
    exact ⟨[ord], h1, by simpa using h3⟩

/-- The orders a whole resolution pass appends, with the same fill facts. -/
theorem resolveOrders_orders (cfg : RunConfig) (barInterval ts : Int)
    (open_price : ℚ) :
    ∀ (reqs : List Req) (st : St),
      ∃ δ : List Order,
        (resolveOrders cfg barInterval ts open_price reqs st).orders =
          st.orders ++ δ ∧
        ∀ ord ∈ δ, ord.status = "FILLED" →
          ord.fill_ts = some ts ∧
          ord.fill_price =
            some (compute_fill_price open_price ord.side cfg.slippage_bps) := by
  intro reqs
  induction reqs with
  | nil => intro st; exact ⟨[], by simp [resolveOrders], by simp⟩
  | cons r rs ih =>
    intro st
    obtain ⟨d1, h1, hs1⟩ := resolveOne_orders cfg barInterval ts open_price st r
    obtain ⟨d2, h2, hs2⟩ := ih (resolveOne cfg barInterval ts open_price st r)
    refine ⟨d1 ++ d2, ?_, ?_⟩
    · rw [show resolveOrders cfg barInterval ts open_price (r :: rs) st =
          resolveOrders cfg barInterval ts open_price rs
            (resolveOne cfg barInterval ts open_price st r) from rfl, h2, h1,
        List.append_assoc]
    · intro ord hord
      rcases List.mem_append.mp hord with h | h
      exacts [hs1 ord h, hs2 ord h]

/-- C1: the orders queued during `on_bar(ctx, i)` are exactly iteration i's
new pending queue (dropped during warmup), and every order the next
iteration resolves to FILLED carries `fill_ts` = bar i+1's timestamp and
`fill_price` = bar i+1's *open* adjusted by slippage — by the fill-price
formula it depends on no close price. -/
theorem C1_next_bar_open_fill (cfg : RunConfig) (bars : Nat → Bar)
    (strat : Nat → St → List Req) (i : Nat) (st : St) :
    (stepBar cfg bars strat i st).pending =
      (if (bars i).ts < cfg.start_ts then []
       else strat i (resolveOrders cfg ((bars 1).ts - (bars 0).ts) (bars i).ts
            (bars i).opn (markAndRecord cfg (bars i) st).pending
            (markAndRecord cfg (bars i) st))) ∧
    ∀ ord ∈ (stepBar cfg bars strat (i + 1) (stepBar cfg bars strat i st)).orders.drop
        (stepBar cfg bars strat i st).orders.length,
      ord.status = "FILLED" →
        ord.fill_ts = some (bars (i + 1)).ts ∧
        ord.fill_price =
          some (compute_fill_price (bars (i + 1)).opn ord.side cfg.slippage_bps) := by
  refine ⟨rfl, ?_⟩
  obtain ⟨δ, hδ, hspec⟩ := resolveOrders_orders cfg ((bars 1).ts - (bars 0).ts)
    (bars (i + 1)).ts (bars (i + 1)).opn
    ((markAndRecord cfg (bars (i + 1)) (stepBar cfg bars strat i st)).pending)
    (markAndRecord cfg (bars (i + 1)) (stepBar cfg bars strat i st))
  have horders : (stepBar cfg bars strat (i + 1) (stepBar cfg bars strat i st)).orders =
      (stepBar cfg bars strat i st).orders ++ δ := by
    rw [show (stepBar cfg bars strat (i + 1) (stepBar cfg bars strat i st)).orders =
        (resolveOrders cfg ((bars 1).ts - (bars 0).ts) (bars (i + 1)).ts
          (bars (i + 1)).opn
          ((markAndRecord cfg (bars (i + 1)) (stepBar cfg bars strat i st)).pending)
          (markAndRecord cfg (bars (i + 1)) (stepBar cfg bars strat i st))).orders
      from rfl, hδ, markAndRecord_orders]
  rw [horders, List.drop_left]
  exact hspec

/-- C1 witness: under `cfgA`/`barsA`, the BUY queued by `stratRT` during
bar 0 resolves at bar 1 as `ordBuyA`, whose fill_ts is bar 1's timestamp
(60) and whose fill price is bar 1's open (100) with zero slippage. -/
theorem C1_next_bar_open_fill_witness :
    ordBuyA.fill_ts = some (barsA 1).ts ∧
    ordBuyA.fill_price =
      some (compute_fill_price (barsA 1).opn ordBuyA.side cfgA.slippage_bps) :=
  (C1_next_bar_open_fill cfgA barsA stratRT 0 (initSt cfgA)).2 ordBuyA
    (by decide) (by decide)

/-- C3 counterexample: with `cfgA`/`barsA` and a strategy that buys 1
during bar 0 and attempts to buy 1 again during bar 1 while long, the run's
ledger holds TWO orders, both with status FILLED (submitted at ts 60 and
120): the same-direction order does *not* vanish from the ledger — line 98
of `backtest.py` appends it as FILLED before the scale check skips its
effects.  The position stays at size 1 and exactly one scale warning is
logged. -/
theorem C3_scale_order_in_ledger_cx :
    (run_backtest cfgA barsA 4 stratSC (fun _ => false)).map
        (fun r => (r.1.orders.map (fun o => (o.status, o.submitted_ts)),
                   r.1.position.size, r.1.events.count Ev.warnScale)) =
      some ([("FILLED", 60), ("FILLED", 120)], 1, 1) := by decide

/-- Run-local invariant backing "the warning is logged at most once per
run": at most one scale warning is in the event log, and none before the
`last_warn["scale"]` flag is set. -/
def warnInv (st : St) : Prop :=
  st.events.count Ev.warnScale ≤ 1 ∧
  (st.warnedScale = false → st.events.count Ev.warnScale = 0)

/-- Appending non-warning events leaves the warning count unchanged. -/
theorem count_warn_append_non (es l : List Ev) (h : Ev.warnScale ∉ l) :
    (es ++ l).count Ev.warnScale = es.count Ev.warnScale := by
  rw [List.count_append, List.count_eq_zero.mpr h, Nat.add_zero]

/-- `execOrder` preserves the warning invariant. -/
theorem execOrder_warnInv (cfg : RunConfig) (barInterval ts : Int) (open_price : ℚ)
    (st : St) (sub : Int) (side : String) (size : ℚ) (h : warnInv st) :
    warnInv (execOrder cfg barInterval ts open_price st sub side size) := by
  obtain ⟨h1, h2⟩ := h
  unfold execOrder
  simp only [can_fill]
  by_cases hok : margin_required size
      (compute_fill_price open_price side cfg.slippage_bps) cfg.leverage ≤
      st.portfolio.equity
  · rw [if_neg (by simp [hok])]
    by_cases hflat : st.position.size = 0
    · rw [if_pos hflat]
      exact ⟨by rwa [count_warn_append_non _ _ (by simp)],
             fun hw => by rw [count_warn_append_non _ _ (by simp)]; exact h2 hw⟩
    · rw [if_neg hflat]
      by_cases hscale : (st.position.size > 0 ∧ side = "BUY") ∨
          (st.position.size < 0 ∧ side = "SELL")
      · rw [if_pos hscale]
        by_cases hwarn : st.warnedScale = false
        · rw [if_pos (by simp [hwarn])]
          refine ⟨?_, fun hw => by simp at hw⟩
          rw [List.count_append, h2 hwarn]
          simp
        · rw [if_neg (by simpa using hwarn)]
          exact ⟨h1, h2⟩
      · rw [if_neg hscale]
        exact ⟨by rwa [count_warn_append_non _ _ (by simp)],
               fun hw => by rw [count_warn_append_non _ _ (by simp)]; exact h2 hw⟩
  · rw [if_pos (by simp [hok])]
    exact ⟨by rwa [count_warn_append_non _ _ (by simp)],
           fun hw => by rw [count_warn_append_non _ _ (by simp)]; exact h2 hw⟩

/-- `resolveOne` preserves the warning invariant. -/
theorem resolveOne_warnInv (cfg : RunConfig) (barInterval ts : Int) (open_price : ℚ)
    (st : St) (o : Req) (h : warnInv st) :
    warnInv (resolveOne cfg barInterval ts open_price st o) := by
  unfold resolveOne
  by_cases h0 : o.side = "FLATTEN" ∧ st.position.size = 0
  · rwa [if_pos h0]
  · rw [if_neg h0]
    exact execOrder_warnInv _ _ _ _ _ _ _ _ h

/-- A whole resolution pass preserves the warning invariant. -/
theorem resolveOrders_warnInv (cfg : RunConfig) (barInterval ts : Int)
    (open_price : ℚ) :
    ∀ (reqs : List Req) (st : St), warnInv st →
      warnInv (resolveOrders cfg barInterval ts open_price reqs st) := by
  intro reqs
  induction reqs with
  | nil => intro st h; exact h
  | cons r rs ih =>
    intro st h
    exact ih _ (resolveOne_warnInv cfg barInterval ts open_price st r h)

/-- `markAndRecord` changes neither the event log nor the warning flag. -/
theorem markAndRecord_events (cfg : RunConfig) (bar : Bar) (st : St) :
    (markAndRecord cfg bar st).events = st.events ∧
    (markAndRecord cfg bar st).warnedScale = st.warnedScale := by
  unfold markAndRecord
  split <;> exact ⟨rfl, rfl⟩

/-- One loop iteration preserves the warning invariant. -/
theorem stepBar_warnInv (cfg : RunConfig) (bars : Nat → Bar)
    (strat : Nat → St → List Req) (i : Nat) (st : St) (h : warnInv st) :
    warnInv (stepBar cfg bars strat i st) := by
  have hmr : warnInv (markAndRecord cfg (bars i) st) := by
    obtain ⟨he, hw⟩ := markAndRecord_events cfg (bars i) st
    exact ⟨he ▸ h.1, fun hf => he ▸ h.2 (hw ▸ hf)⟩
  exact resolveOrders_warnInv _ _ _ _ _ _ hmr

/-- The loop preserves the warning invariant. -/
theorem loopRun_warnInv (cfg : RunConfig) (bars : Nat → Bar)
    (strat : Nat → St → List Req) (cancel : Nat → Bool) :
    ∀ (fuel i : Nat) (st : St), warnInv st →
      warnInv (loopRun cfg bars strat cancel fuel i st).1 := by
  intro fuel
  induction fuel with
  | zero => intro i st h; exact h
  | succ n ih =>
    intro i st h
    unfold loopRun
    split
    · exact h
    · exact ih _ _ (stepBar_warnInv cfg bars strat i st h)

/-- The forced close-out changes neither the event log nor the flag. -/
theorem finalizeClose_events (cfg : RunConfig) (closeBarTs : Int) (close_price : ℚ)
    (st : St) :
    (finalizeClose cfg closeBarTs close_price st).events = st.events ∧
    (finalizeClose cfg closeBarTs close_price st).trades =
      st.trades ++ (closeoutTrade cfg closeBarTs close_price st).toList ∧
    (finalizeClose cfg closeBarTs close_price st).warnedScale = st.warnedScale := by
  unfold finalizeClose closeoutTrade
  by_cases h : st.position.size = 0
  · rw [if_pos h, if_pos h]
    exact ⟨rfl, by simp, rfl⟩
  · rw [if_neg h, if_neg h]
    exact ⟨rfl, by simp [Option.toList], rfl⟩

/-- C3 amended: a same-direction order against a nonzero position that
passes the margin check IS recorded in the ledger with status FILLED
(`backtest.py` line 98 appends it before the scale check) — it does not
vanish; its effects are skipped: position, portfolio and trades are
untouched, no `on_order` callback fires for it (the only event possibly
appended is the one-time warning), and over any whole run the scale
warning is logged at most once. -/
theorem C3_scale_order_amended :
    (∀ (cfg : RunConfig) (barInterval ts : Int) (open_price : ℚ) (st : St)
        (sub : Int) (side : String) (size : ℚ),
        ¬ st.position.size = 0 →
        ((st.position.size > 0 ∧ side = "BUY") ∨
          (st.position.size < 0 ∧ side = "SELL")) →
        margin_required size (compute_fill_price open_price side cfg.slippage_bps)
            cfg.leverage ≤ st.portfolio.equity →
        ∃ ord : Order, ord.status = "FILLED" ∧
          (execOrder cfg barInterval ts open_price st sub side size).orders =
            st.orders ++ [ord] ∧
          (execOrder cfg barInterval ts open_price st sub side size).position =
            st.position ∧
          (execOrder cfg barInterval ts open_price st sub side size).portfolio =
            st.portfolio ∧
          (execOrder cfg barInterval ts open_price st sub side size).trades =
            st.trades ∧
          (execOrder cfg barInterval ts open_price st sub side size).events =
            st.events ++ (if st.warnedScale then [] else [Ev.warnScale]) ∧
          (execOrder cfg barInterval ts open_price st sub side size).warnedScale =
            true) ∧
    (∀ (cfg : RunConfig) (bars : Nat → Bar) (n : Nat)
        (strat : Nat → St → List Req) (cancel : Nat → Bool) (st : St)
        (status : Status),
        run_backtest cfg bars n strat cancel = some (st, status) →
        st.events.count Ev.warnScale ≤ 1) := by
  constructor
  · intro cfg barInterval ts open_price st sub side size hflat hscale hok
    unfold execOrder
    simp only [can_fill]
    rw [if_neg (by simp [hok]), if_neg hflat, if_pos hscale]
    by_cases hwarn : st.warnedScale = false
    · rw [if_pos (by simp [hwarn]), if_neg (by simp [hwarn])]
      exact ⟨_, rfl, rfl, rfl, rfl, rfl, rfl, rfl⟩
    · rw [if_neg (by simpa using hwarn),
        if_pos (by simpa using hwarn)]
      exact ⟨_, rfl, rfl, rfl, rfl, rfl, by simp, by simpa using hwarn⟩
  · intro cfg bars n strat cancel st status hrun
    unfold run_backtest at hrun
    by_cases hn : n < 2
    · rw [if_pos hn] at hrun
      exact absurd hrun (by simp)
    · rw [if_neg hn] at hrun
      have hinv : warnInv (loopRun cfg bars strat cancel (n - 1) 0 (initSt cfg)).1 :=
        loopRun_warnInv cfg bars strat cancel (n - 1) 0 (initSt cfg)
          ⟨by simp [initSt], fun _ => by simp [initSt]⟩
      simp only [Option.some.injEq, Prod.mk.injEq] at hrun
      obtain ⟨hst, -⟩ := hrun
      cases hstat : (loopRun cfg bars strat cancel (n - 1) 0 (initSt cfg)).2.1 with
      | CANCELED =>
        rw [hstat] at hst
        rw [← hst]
        rw [(finalizeClose_events _ _ _ _).1]
        exact hinv.1
      | DONE =>
        rw [hstat] at hst
        by_cases hc : cfg.close_on_finish = true
        · rw [if_pos hc] at hst
          rw [← hst, (finalizeClose_events _ _ _ _).1]
          exact hinv.1
        · rw [if_neg hc] at hst
          rw [← hst]
          exact hinv.1

/-- C3 witness: resolving the second BUY of `stratSC` (BUY 1 while long 1
under `cfgA`, margin 100 ≤ equity 1000) appends a FILLED record while
leaving position, portfolio and trades untouched and logging the one
warning. -/
theorem C3_scale_order_amended_witness :
    ∃ ord : Order, ord.status = "FILLED" ∧
      (execOrder cfgA 60 120 100
        { initSt cfgA with
            position := { size := 1, entry_price := some 100, entry_ts := some 60 } }
        120 "BUY" 1).orders =
        ({ initSt cfgA with
            position := { size := 1, entry_price := some 100, entry_ts := some 60 } } :
          St).orders ++ [ord] ∧
      (execOrder cfgA 60 120 100
        { initSt cfgA with
            position := { size := 1, entry_price := some 100, entry_ts := some 60 } }
        120 "BUY" 1).position =
        ({ initSt cfgA with
            position := { size := 1, entry_price := some 100, entry_ts := some 60 } } :
          St).position ∧
      (execOrder cfgA 60 120 100
        { initSt cfgA with
            position := { size := 1, entry_price := some 100, entry_ts := some 60 } }
        120 "BUY" 1).portfolio =
        ({ initSt cfgA with
            position := { size := 1, entry_price := some 100, entry_ts := some 60 } } :
          St).portfolio ∧
      (execOrder cfgA 60 120 100
        { initSt cfgA with
            position := { size := 1, entry_price := some 100, entry_ts := some 60 } }
        120 "BUY" 1).trades =
        ({ initSt cfgA with
            position := { size := 1, entry_price := some 100, entry_ts := some 60 } } :
          St).trades ∧
      (execOrder cfgA 60 120 100
        { initSt cfgA with
            position := { size := 1, entry_price := some 100, entry_ts := some 60 } }
        120 "BUY" 1).events =
        ({ initSt cfgA with
            position := { size := 1, entry_price := some 100, entry_ts := some 60 } } :
          St).events ++
          (if ({ initSt cfgA with
              position := { size := 1, entry_price := some 100, entry_ts := some 60 } } :
            St).warnedScale then [] else [Ev.warnScale]) ∧
      (execOrder cfgA 60 120 100
        { initSt cfgA with
            position := { size := 1, entry_price := some 100, entry_ts := some 60 } }
        120 "BUY" 1).warnedScale = true :=
  (C3_scale_order_amended).1 cfgA 60 120 100
    { initSt cfgA with
        position := { size := 1, entry_price := some 100, entry_ts := some 60 } }
    120 "BUY" 1 (by decide) (by decide) (by decide)

/-- C8 witness: with the limit reached at 100000 and a requested window
minimum of 90000 ≤ 100000, the call returns the cached slice and issues no
provider fetch. -/
theorem C8_history_limit_amended_witness :
    load_more_history (fun _ _ => []) 0 store8 "1m" 1 (some 90000) (some 260000) =
      { bars := load_bars store8 90000 260000, store := store8, calls := [] } :=
  C8_history_limit_amended.1 (fun _ _ => []) 0 store8 "1m" 1 (some 90000)
    (some 260000) 200000 260000 100000 (by decide) (by decide) (by decide) (by decide)

/-- C4 counterexample: the `cfgA`/`barsA`/`stratRT` round trip (BUY 1
filled at 100, SELL 1 filled at 110, commission 10 bps) produces exactly
one Trade with pnl 9.89 and fee_total 0.11 — the trade's pnl nets only the
exit leg's fee; net of both legs' fees would be 9.79.  The claim's "pnl
equals (exit − entry) × S net of both legs' fees" is false on the code. -/
theorem C4_round_trip_pnl_cx :
    (run_backtest cfgA barsA 4 stratRT (fun _ => false)).map (fun r =>
        r.1.trades.map (fun t =>
          (t.entry_price, t.exit_price, t.size, t.pnl, t.fee_total))) =
      some [(100, 110, 1, 989/100, 11/100)] ∧
    compute_fee 1 100 cfgA.commission_bps = 1/10 ∧
    compute_fee 1 110 cfgA.commission_bps = 11/100 ∧
    ¬ (989/100 : ℚ) = (110 - 100) * 1 - (1/10 + 11/100) := by decide

/-- C4 amended: starting flat, an accepted BUY of size S opens the
position at the slippage-adjusted fill price (cash reduced by the entry
fee only); a later accepted SELL of size S appends exactly one LONG Trade
whose pnl is `(exit_fill − entry_fill) · S` minus the *exit* fee only
(fee_total is the exit fee; the entry fee was charged to cash at entry but
is not netted into the Trade), and leaves the position flat: size 0,
entry_price and entry_ts null. -/
theorem C4_round_trip_amended :
    (∀ (cfg : RunConfig) (barInterval ts1 : Int) (open1 : ℚ) (st : St)
        (sub1 : Option Int) (S : ℚ),
        st.position.size = 0 →
        margin_required S (compute_fill_price open1 "BUY" cfg.slippage_bps)
            cfg.leverage ≤ st.portfolio.equity →
        (resolveOne cfg barInterval ts1 open1 st
            { side := "BUY", size := S, submitted_ts := sub1 }).position =
          { size := S,
            entry_price := some (compute_fill_price open1 "BUY" cfg.slippage_bps),
            entry_ts := some ts1 } ∧
        (resolveOne cfg barInterval ts1 open1 st
            { side := "BUY", size := S, submitted_ts := sub1 }).trades = st.trades ∧
        (resolveOne cfg barInterval ts1 open1 st
            { side := "BUY", size := S, submitted_ts := sub1 }).portfolio.cash =
          st.portfolio.cash -
            compute_fee S (compute_fill_price open1 "BUY" cfg.slippage_bps)
              cfg.commission_bps) ∧
    (∀ (cfg : RunConfig) (barInterval ts2 tsE : Int) (open2 pB : ℚ) (st2 : St)
        (sub2 : Option Int) (S : ℚ),
        0 < S →
        st2.position = { size := S, entry_price := some pB, entry_ts := some tsE } →
        margin_required S (compute_fill_price open2 "SELL" cfg.slippage_bps)
            cfg.leverage ≤ st2.portfolio.equity →
        (resolveOne cfg barInterval ts2 open2 st2
            { side := "SELL", size := S, submitted_ts := sub2 }).trades =
          st2.trades ++
            [{ side := "LONG", size := S, entry_ts := tsE, entry_price := pB,
               exit_ts := ts2,
               exit_price := compute_fill_price open2 "SELL" cfg.slippage_bps,
               pnl := (compute_fill_price open2 "SELL" cfg.slippage_bps - pB) * S -
                 compute_fee S (compute_fill_price open2 "SELL" cfg.slippage_bps)
                   cfg.commission_bps,
               fee_total :=
                 compute_fee S (compute_fill_price open2 "SELL" cfg.slippage_bps)
                   cfg.commission_bps,
               bars_held := max 1 (Int.tdiv (ts2 - tsE) (max 1 barInterval)) }] ∧
        (resolveOne cfg barInterval ts2 open2 st2
            { side := "SELL", size := S, submitted_ts := sub2 }).position.size = 0 ∧
        (resolveOne cfg barInterval ts2 open2 st2
            { side := "SELL", size := S, submitted_ts := sub2 }).position.entry_price =
          none ∧
        (resolveOne cfg barInterval ts2 open2 st2
            { side := "SELL", size := S, submitted_ts := sub2 }).position.entry_ts =
          none ∧
        (resolveOne cfg barInterval ts2 open2 st2
            { side := "SELL", size := S, submitted_ts := sub2 }).portfolio.cash =
          st2.portfolio.cash +
            (compute_fill_price open2 "SELL" cfg.slippage_bps - pB) * S -
            compute_fee S (compute_fill_price open2 "SELL" cfg.slippage_bps)
              cfg.commission_bps) := by
  constructor
  · intro cfg barInterval ts1 open1 st sub1 S hflat hok
    unfold resolveOne
    rw [if_neg (by simp)]
    rw [if_neg (show ¬("BUY" : String) = "FLATTEN" by decide),
      if_neg (show ¬("BUY" : String) = "FLATTEN" by decide)]
    unfold execOrder
    simp only [can_fill]
    rw [if_neg (by simp [hok]), if_pos hflat]
    exact ⟨by simp, rfl, rfl⟩
  · intro cfg barInterval ts2 tsE open2 pB st2 sub2 S hS hpos hok
    unfold resolveOne
    rw [if_neg (by simp)]
    rw [if_neg (show ¬("SELL" : String) = "FLATTEN" by decide),
      if_neg (show ¬("SELL" : String) = "FLATTEN" by decide)]
    unfold execOrder
    simp only [can_fill]
    rw [if_neg (by simp [hok])]
    rw [if_neg (show ¬_ = (0 : ℚ) by simp [hpos]; exact ne_of_gt hS)]
    rw [if_neg (by simp [hpos]; exact hS.le)]
    refine ⟨?_, by simp [close_position], by simp [close_position],
      by simp [close_position], by simp [hpos]⟩
    simp [hpos, position_side, if_pos hS, abs_of_pos hS]

/-- State long 1 @ 100 since ts 60, otherwise fresh (entry leg of the
round trip already executed). -/
def stLongA : St :=
  { initSt cfgA with
      position := { size := 1, entry_price := some 100, entry_ts := some 60 } }

/-- C4 witness: the SELL leg of the round trip under `cfgA` (exit fill
110, exit fee 0.11) appends exactly one LONG trade with
`pnl = (110 − 100)·1 − 0.11` and leaves the position flat. -/
theorem C4_round_trip_amended_witness :
    (resolveOne cfgA 60 120 110 stLongA
        { side := "SELL", size := 1, submitted_ts := none }).trades =
      [{ side := "LONG", size := 1, entry_ts := 60, entry_price := 100,
         exit_ts := 120, exit_price := 110, pnl := (110 - 100) * 1 - 11/100,
         fee_total := 11/100, bars_held := 1 }] ∧
    (resolveOne cfgA 60 120 110 stLongA
        { side := "SELL", size := 1, submitted_ts := none }).position.size = 0 ∧
    (resolveOne cfgA 60 120 110 stLongA
        { side := "SELL", size := 1, submitted_ts := none }).position.entry_price =
      none := by
  have h := C4_round_trip_amended.2 cfgA 60 120 60 110 100 stLongA none 1
    (by decide) (by decide) (by decide)
  refine ⟨?_, h.2.1, h.2.2.1⟩
  rw [h.1]
  decide

/-- A run's successive `mark_to_market` calls: between calls the loop may
change cash (fills) and the position arbitrarily, so each observation
supplies the cash, position and price for one call; the portfolio's
equity/peak/drawdown state is threaded through. -/
def mtmStates (p : Portfolio) : List (ℚ × Position × ℚ) → List Portfolio
  | [] => []
  | (cash, pos, price) :: rest =>
    let p1 := (mark_to_market { p with cash := cash } pos price).1
    p1 :: mtmStates p1 rest

/-- The portfolio after one `mark_to_market`: some equity `e`, peak
`max old-peak e`, drawdown clamped. -/
theorem mark_to_market_portfolio (p : Portfolio) (pos : Position) (price : ℚ) :
    ∃ e : ℚ, (mark_to_market p pos price).1 =
      { cash := p.cash, equity := e, peak := max p.peak e,
        drawdown := max 0 ((max p.peak e - e) / max p.peak e) } := by
  unfold mark_to_market update_drawdown
  split <;> exact ⟨_, rfl⟩

/-- The peak after `mark_to_market` is the max of the previous peak and
the new equity. -/
theorem mtm_peak (p : Portfolio) (pos : Position) (price : ℚ) :
    (mark_to_market p pos price).1.peak =
      max p.peak (mark_to_market p pos price).1.equity := by
  obtain ⟨e, he⟩ := mark_to_market_portfolio p pos price
  rw [he]

/-- Equity never exceeds the updated peak. -/
theorem mtm_equity_le (p : Portfolio) (pos : Position) (price : ℚ) :
    (mark_to_market p pos price).1.equity ≤ (mark_to_market p pos price).1.peak := by
  obtain ⟨e, he⟩ := mark_to_market_portfolio p pos price
  rw [he]
  exact le_max_right _ _

/-- A positive peak stays positive. -/
theorem mtm_peak_pos (p : Portfolio) (pos : Position) (price : ℚ)
    (hp : 0 < p.peak) : 0 < (mark_to_market p pos price).1.peak := by
  obtain ⟨e, he⟩ := mark_to_market_portfolio p pos price
  rw [he]
  exact lt_max_of_lt_left hp

/-- With a positive previous peak the clamp in `update_drawdown` is never
active: the recorded drawdown is exactly `(peak − equity)/peak`. -/
theorem mtm_drawdown (p : Portfolio) (pos : Position) (price : ℚ)
    (hp : 0 < p.peak) :
    (mark_to_market p pos price).1.drawdown =
      ((mark_to_market p pos price).1.peak - (mark_to_market p pos price).1.equity) /
        (mark_to_market p pos price).1.peak := by
  obtain ⟨e, he⟩ := mark_to_market_portfolio p pos price
  rw [he]
  have hnn : 0 ≤ (max p.peak e - e) / max p.peak e :=
    div_nonneg (sub_nonneg.mpr (le_max_right _ _)) (le_of_lt (lt_max_of_lt_left hp))
  simpa using max_eq_right hnn

/-- Elementwise facts along a `mark_to_market` sequence (peak positive
seeds the run): the peak at index i is the running max of the observed
equities seeded by the initial peak, equity never exceeds it, it stays
positive, and the drawdown equals `(peak − equity)/peak` (the clamp is
never active). -/
theorem mtmStates_facts :
    ∀ (obs : List (ℚ × Position × ℚ)) (p : Portfolio), 0 < p.peak →
      ∀ (i : Nat) (h : i < (mtmStates p obs).length),
        ((mtmStates p obs).get ⟨i, h⟩).peak =
          List.foldl max p.peak (((mtmStates p obs).take (i + 1)).map Portfolio.equity) ∧
        ((mtmStates p obs).get ⟨i, h⟩).equity ≤ ((mtmStates p obs).get ⟨i, h⟩).peak ∧
        0 < ((mtmStates p obs).get ⟨i, h⟩).peak ∧
        ((mtmStates p obs).get ⟨i, h⟩).drawdown =
          (((mtmStates p obs).get ⟨i, h⟩).peak - ((mtmStates p obs).get ⟨i, h⟩).equity) /
            ((mtmStates p obs).get ⟨i, h⟩).peak := by
  intro obs
  induction obs with
  | nil =>
    intro p hp i h
    simp [mtmStates] at h
  | cons ob rest ih =>
    intro p hp i h
    obtain ⟨cash, pos, price⟩ := ob
    have hp' : 0 < ({ p with cash := cash } : Portfolio).peak := hp
    have hpk := mtm_peak { p with cash := cash } pos price
    simp only [show ({ p with cash := cash } : Portfolio).peak = p.peak from rfl] at hpk
    cases i with
    | zero =>
      simp only [mtmStates, List.get_cons_zero, List.take_succ_cons, List.take_zero,
        List.map_cons, List.map_nil, List.foldl_cons, List.foldl_nil]
      exact ⟨hpk, mtm_equity_le _ _ _, mtm_peak_pos _ _ _ hp',
        mtm_drawdown _ _ _ hp'⟩
    | succ j =>
      have h' : j < (mtmStates (mark_to_market { p with cash := cash } pos price).1
          rest).length := by
        simpa [mtmStates] using h
      obtain ⟨f1, f2, f3, f4⟩ :=
        ih (mark_to_market { p with cash := cash } pos price).1
          (mtm_peak_pos _ _ _ hp') j h'
      simp only [mtmStates, List.get_cons_succ, List.take_succ_cons, List.map_cons,
        List.foldl_cons]
      exact ⟨by rw [f1, hpk], f2, f3, f4⟩

/-- The running peak never decreases from one observation to the next. -/
theorem mtmStates_peak_mono :
    ∀ (obs : List (ℚ × Position × ℚ)) (p : Portfolio) (i : Nat)
      (h2 : i + 1 < (mtmStates p obs).length),
      ((mtmStates p obs).get ⟨i, Nat.lt_of_succ_lt h2⟩).peak ≤
        ((mtmStates p obs).get ⟨i + 1, h2⟩).peak := by
  intro obs
  induction obs with
  | nil => intro p i h2; simp [mtmStates] at h2
  | cons ob rest ih =>
    intro p i h2
    obtain ⟨cash, pos, price⟩ := ob
    cases i with
    | zero =>
      cases rest with
      | nil => simp [mtmStates] at h2
      | cons ob2 rest2 =>
        obtain ⟨c2, pos2, price2⟩ := ob2
        simp only [mtmStates, List.get_cons_succ, List.get_cons_zero]
        exact le_trans (le_max_left _ _) (mtm_peak _ _ _).ge
    | succ j =>
      have h2' : j + 1 < (mtmStates (mark_to_market { p with cash := cash } pos
          price).1 rest).length := by
        simpa [mtmStates] using h2
      simp only [mtmStates, List.get_cons_succ]
      exact ih _ j h2'

/-- The portfolio `run_backtest` starts from (equity = peak = cash,
drawdown 0). -/
def freshPortfolio (c : ℚ) : Portfolio :=
  { cash := c, equity := c, peak := c, drawdown := 0 }

/-- C6: the run starts from `freshPortfolio initial_cash`; along any
sequence of `mark_to_market` calls from it (cash/position free to change
between calls, initial cash positive), the drawdown after call i equals
`(M_i − equity_i)/M_i` where `M_i` is the maximum equity observed so far
(the running max, seeded by the initial equity), the drawdown is ≥ 0, and
the running peak never decreases. -/
theorem C6_drawdown_peak (c : ℚ) (hc : 0 < c) (obs : List (ℚ × Position × ℚ))
    (i : Nat) (h : i < (mtmStates (freshPortfolio c) obs).length) :
    (∀ cfg : RunConfig, (initSt cfg).portfolio = freshPortfolio cfg.initial_cash) ∧
    ((mtmStates (freshPortfolio c) obs).get ⟨i, h⟩).drawdown =
      (List.foldl max c
          (((mtmStates (freshPortfolio c) obs).take (i + 1)).map Portfolio.equity) -
        ((mtmStates (freshPortfolio c) obs).get ⟨i, h⟩).equity) /
      List.foldl max c
        (((mtmStates (freshPortfolio c) obs).take (i + 1)).map Portfolio.equity) ∧
    0 ≤ ((mtmStates (freshPortfolio c) obs).get ⟨i, h⟩).drawdown ∧
    ∀ h2 : i + 1 < (mtmStates (freshPortfolio c) obs).length,
      ((mtmStates (freshPortfolio c) obs).get ⟨i, h⟩).peak ≤
        ((mtmStates (freshPortfolio c) obs).get ⟨i + 1, h2⟩).peak := by
  obtain ⟨f1, f2, f3, f4⟩ := mtmStates_facts obs (freshPortfolio c) hc i h
  have hseed : (freshPortfolio c).peak = c := rfl
  rw [hseed] at f1
  refine ⟨fun _ => rfl, ?_, ?_, ?_⟩
  · rw [f4, f1]
  · rw [f4]
    exact div_nonneg (sub_nonneg.mpr f2) f3.le
  · intro h2
    exact mtmStates_peak_mono obs (freshPortfolio c) i h2

/-- Two flat observations with cash 100 then 90 (an unrealized loss):
equities 100, 90. -/
def obsW : List (ℚ × Position × ℚ) :=
  [(100, { size := 0, entry_price := none, entry_ts := none }, 5),
   (90, { size := 0, entry_price := none, entry_ts := none }, 5)]

/-- C6 witness: after the second observation (equity 90, running max 100)
the theorem instantiates to drawdown `(100 − 90)/100`, non-negative, with
no further observation to compare peaks against. -/
theorem C6_drawdown_peak_witness :
    (∀ cfg : RunConfig, (initSt cfg).portfolio = freshPortfolio cfg.initial_cash) ∧
    ((mtmStates (freshPortfolio 100) obsW).get ⟨1, by decide⟩).drawdown =
      (List.foldl max 100
          (((mtmStates (freshPortfolio 100) obsW).take 2).map Portfolio.equity) -
        ((mtmStates (freshPortfolio 100) obsW).get ⟨1, by decide⟩).equity) /
      List.foldl max 100
        (((mtmStates (freshPortfolio 100) obsW).take 2).map Portfolio.equity) ∧
    0 ≤ ((mtmStates (freshPortfolio 100) obsW).get ⟨1, by decide⟩).drawdown ∧
    ∀ h2 : 2 < (mtmStates (freshPortfolio 100) obsW).length,
      ((mtmStates (freshPortfolio 100) obsW).get ⟨1, by decide⟩).peak ≤
        ((mtmStates (freshPortfolio 100) obsW).get ⟨2, h2⟩).peak :=
  C6_drawdown_peak 100 (by decide) obsW 1 (by decide)

/-! ## Cancellation scenario (C5): a 102-bar run canceled at index 100 -/

/-- Config for the cancellation run: no fees/slippage, trading only from
ts 5880 (bar 98) so the warmup prefix leaves the state untouched. -/
def cfgC : RunConfig :=
  { initial_cash := 1000, leverage := 1, commission_bps := 0, slippage_bps := 0,
    start_ts := 5880, close_on_finish := false }

/-- 60 ms bars; bar 99 closes at 110, bar 100 closes at 120, all else 100. -/
def barsC : Nat → Bar := fun i =>
  { ts := 60 * i, opn := 100, hgh := 120, lw := 90,
    cls := if i = 99 then 110 else if i = 100 then 120 else 100, vol := 0 }

/-- Strategy: BUY 2 during bar 98 (fills at bar 99's open, price 100). -/
def stratC : Nat → St → List Req := fun i _ =>
  if i = 98 then [{ side := "BUY", size := 2, submitted_ts := none }] else []

/-- Cancellation predicate: fires at polled index 100. -/
def cancelC : Nat → Bool := fun i => i == 100

/-- Composing the loop: `k` iterations that change nothing (and trip no
cancellation) simply advance the index. -/
theorem loopRun_skip (cfg : RunConfig) (bars : Nat → Bar)
    (strat : Nat → St → List Req) (cancel : Nat → Bool) :
    ∀ (k fuel i : Nat) (st : St),
      (∀ j, i ≤ j → j < i + k →
        stepBar cfg bars strat j st = st ∧ ¬(j % 100 = 0 ∧ cancel j = true)) →
      loopRun cfg bars strat cancel (k + fuel) i st =
        loopRun cfg bars strat cancel fuel (i + k) st := by
  intro k
  induction k with
  | zero => intro fuel i st _; simp
  | succ m ih =>
    intro fuel i st h
    rw [show m + 1 + fuel = (m + fuel) + 1 from by omega]
    have hi := h i (le_refl i) (by omega)
    rw [show loopRun cfg bars strat cancel ((m + fuel) + 1) i st =
        (if i % 100 = 0 ∧ cancel i = true then (st, Status.CANCELED, i)
         else loopRun cfg bars strat cancel (m + fuel) (i + 1)
           (stepBar cfg bars strat i st)) from rfl]
    rw [if_neg hi.2, hi.1]
    rw [ih fuel (i + 1) st (fun j h1 h2 => h j (by omega) (by omega))]
    rw [show i + 1 + m = i + (m + 1) from by omega]

/-- During the warmup prefix of the cancellation scenario (bars 0–97) an
iteration changes nothing: the bar precedes `start_ts`, the portfolio is
flat and already marked, and no orders are pending or queued. -/
theorem stepBarC_warmup (j : Nat) (hj : j < 98) :
    stepBar cfgC barsC stratC j (initSt cfgC) = initSt cfgC := by
  have hts : ¬ ((barsC j).ts ≥ cfgC.start_ts) := by
    simp only [barsC, cfgC]
    intro hge
    omega
  have hts2 : (barsC j).ts < cfgC.start_ts := by
    simpa using lt_of_not_ge hts
  have hmtm : (mark_to_market (initSt cfgC).portfolio (initSt cfgC).position
      ((barsC j).cls)).1 = (initSt cfgC).portfolio := by
    unfold mark_to_market
    rw [if_pos (show (initSt cfgC).position.size = 0 ∨
        (initSt cfgC).position.entry_price = none from Or.inl rfl)]
    decide
  have h1 : markAndRecord cfgC (barsC j) (initSt cfgC) = initSt cfgC := by
    unfold markAndRecord
    rw [if_neg hts, hmtm]
  simp only [stepBar]
  rw [h1]
  rw [show resolveOrders cfgC ((barsC 1).ts - (barsC 0).ts) (barsC j).ts (barsC j).opn
      (initSt cfgC).pending (initSt cfgC) = initSt cfgC from rfl]
  rw [if_pos hts2]
  rfl

/-- C5 counterexample: canceling at polled index 100 with a long 2 @ 100
position yields status CANCELED and one Trade — but its exit price is 120,
the close of bar 100 (the bar at which the cancel poll fired, which was
never processed), not 110, the close of bar 99, the last processed bar.
`pnl = (120 − 100) · 2 = 40`, not `(110 − 100) · 2`; `bars_held` is 1. -/
theorem C5_cancel_close_price_cx :
    (run_backtest cfgC barsC 102 stratC cancelC).map (fun r =>
        (r.2, r.1.trades.map (fun t => (t.exit_ts, t.exit_price, t.pnl, t.bars_held)))) =
      some (Status.CANCELED, [(6000, 120, 40, 1)]) ∧
    (barsC 99).cls = 110 ∧ (barsC 100).cls = 120 ∧ ¬ (120 : ℚ) = 110 := by
  have hskip : loopRun cfgC barsC stratC cancelC 101 0 (initSt cfgC) =
      loopRun cfgC barsC stratC cancelC 3 98 (initSt cfgC) := by
    have h := loopRun_skip cfgC barsC stratC cancelC 98 3 0 (initSt cfgC)
      (fun j h1 h2 => ⟨stepBarC_warmup j (by omega), by
        rintro ⟨-, hc⟩
        simp only [cancelC, beq_iff_eq] at hc
        omega⟩)
    simpa using h
  constructor
  · unfold run_backtest
    rw [if_neg (by norm_num)]
    simp only [show (102 : Nat) - 1 = 101 from rfl]
    rw [hskip]
    decide
  · exact ⟨rfl, rfl, by decide⟩

/-- C5 amended: when the cancellation poll stops the loop at index i, the
run returns status CANCELED and force-closes at the close of bar
`min i (n−1)` — the bar at which cancellation was *detected* (the first
unprocessed bar), not the last processed bar — and the close-out appends
exactly one Trade with `pnl = (close − entry) × size − fee`,
`fee = |size|·close·commission_bps/10000`, at that bar's close. -/
theorem C5_cancel_closeout_amended :
    (∀ (cfg : RunConfig) (bars : Nat → Bar) (n : Nat)
        (strat : Nat → St → List Req) (cancel : Nat → Bool) (st : St) (i : Nat),
        ¬ n < 2 →
        loopRun cfg bars strat cancel (n - 1) 0 (initSt cfg) =
          (st, Status.CANCELED, i) →
        run_backtest cfg bars n strat cancel =
          some (finalizeClose cfg (bars (min i (n - 1))).ts
            (bars (min i (n - 1))).cls st, Status.CANCELED)) ∧
    (∀ (cfg : RunConfig) (closeBarTs : Int) (close_price : ℚ) (st : St),
        st.position.size ≠ 0 →
        (finalizeClose cfg closeBarTs close_price st).trades =
          st.trades ++
            [{ side := (position_side st.position).getD "LONG",
               size := |st.position.size|,
               entry_ts := st.position.entry_ts.getD closeBarTs,
               entry_price := st.position.entry_price.getD close_price,
               exit_ts := closeBarTs, exit_price := close_price,
               pnl := (close_price - st.position.entry_price.getD close_price) *
                   st.position.size -
                 compute_fee |st.position.size| close_price cfg.commission_bps,
               fee_total := compute_fee |st.position.size| close_price
                 cfg.commission_bps,
               bars_held := 1 }]) := by
  constructor
  · intro cfg bars n strat cancel st i hn hloop
    unfold run_backtest
    rw [if_neg hn, hloop]
  · intro cfg closeBarTs close_price st hne
    unfold finalizeClose
    rw [if_neg hne]

/-- C5 witness: a 2-bar run whose cancel predicate fires at the very first
poll returns CANCELED finalized at bar `min 0 1 = 0`; and force-closing a
long 1 @ 100 held since ts 60 at bar-close ts 6000 / price 120 appends the
one close-out trade. -/
theorem C5_cancel_closeout_amended_witness :
    run_backtest cfgA barsA 2 (fun _ _ => []) (fun _ => true) =
      some (finalizeClose cfgA (barsA (min 0 (2 - 1))).ts
        (barsA (min 0 (2 - 1))).cls (initSt cfgA), Status.CANCELED) ∧
    (finalizeClose cfgA 6000 120 stLongA).trades =
      stLongA.trades ++
        [{ side := (position_side stLongA.position).getD "LONG",
           size := |stLongA.position.size|,
           entry_ts := stLongA.position.entry_ts.getD 6000,
           entry_price := stLongA.position.entry_price.getD 120,
           exit_ts := 6000, exit_price := 120,
           pnl := (120 - stLongA.position.entry_price.getD 120) *
               stLongA.position.size -
             compute_fee |stLongA.position.size| 120 cfgA.commission_bps,
           fee_total := compute_fee |stLongA.position.size| 120 cfgA.commission_bps,
           bars_held := 1 }] :=
  ⟨C5_cancel_closeout_amended.1 cfgA barsA 2 (fun _ _ => []) (fun _ => true)
      (initSt cfgA) 0 (by norm_num) (by decide),
   C5_cancel_closeout_amended.2 cfgA 6000 120 stLongA (by decide)⟩

/-- C10: every trade appended by a forced close-out (cancellation
finalization and `close_on_finish` both go through `finalizeClose`) has
`bars_held = 1` regardless of the actual holding span, and the close-out
appends no event — `on_trade` is not invoked for it; by contrast an
order-driven close appends an `on_trade` (then `on_order`) event. -/
theorem C10_closeout_bars_held :
    (∀ (cfg : RunConfig) (closeBarTs : Int) (close_price : ℚ) (st : St),
        (finalizeClose cfg closeBarTs close_price st).trades =
          st.trades ++ (closeoutTrade cfg closeBarTs close_price st).toList ∧
        (∀ t ∈ (closeoutTrade cfg closeBarTs close_price st).toList,
          t.bars_held = 1) ∧
        (finalizeClose cfg closeBarTs close_price st).events = st.events) ∧
    (∀ (cfg : RunConfig) (barInterval ts2 tsE : Int) (open2 pB : ℚ) (st2 : St)
        (sub2 : Option Int) (S : ℚ), 0 < S →
        st2.position = { size := S, entry_price := some pB, entry_ts := some tsE } →
        margin_required S (compute_fill_price open2 "SELL" cfg.slippage_bps)
            cfg.leverage ≤ st2.portfolio.equity →
        ∃ t o, (resolveOne cfg barInterval ts2 open2 st2
            { side := "SELL", size := S, submitted_ts := sub2 }).events =
          st2.events ++ [Ev.trade t, Ev.order o]) := by
  constructor
  · intro cfg closeBarTs close_price st
    refine ⟨(finalizeClose_events cfg closeBarTs close_price st).2.1, ?_,
      (finalizeClose_events cfg closeBarTs close_price st).1⟩
    intro t ht
    unfold closeoutTrade at ht
    by_cases h : st.position.size = 0
    · rw [if_pos h] at ht
      simp at ht
    · rw [if_neg h] at ht
      simp only [Option.toList_some, List.mem_singleton] at ht
      rw [ht]
  · intro cfg barInterval ts2 tsE open2 pB st2 sub2 S hS hpos hok
    unfold resolveOne
    rw [if_neg (by simp)]
    rw [if_neg (show ¬("SELL" : String) = "FLATTEN" by decide),
      if_neg (show ¬("SELL" : String) = "FLATTEN" by decide)]
    unfold execOrder
    simp only [can_fill]
    rw [if_neg (by simp [hok])]
    rw [if_neg (show ¬_ = (0 : ℚ) by simp [hpos]; exact ne_of_gt hS)]
    rw [if_neg (by simp [hpos]; exact hS.le)]
    exact ⟨_, _, rfl⟩

/-- C10 witness: force-closing a long held from ts 60 to ts 6000 (99 bar
intervals) still records `bars_held = 1`, and the close-out appends no
event. -/
theorem C10_closeout_bars_held_witness :
    (finalizeClose cfgA 6000 120 stLongA).trades =
      stLongA.trades ++ (closeoutTrade cfgA 6000 120 stLongA).toList ∧
    (∀ t ∈ (closeoutTrade cfgA 6000 120 stLongA).toList, t.bars_held = 1) ∧
    (finalizeClose cfgA 6000 120 stLongA).events = stLongA.events :=
  C10_closeout_bars_held.1 cfgA 6000 120 stLongA
